import Mathlib

/-!
Shallow embedding of the `sorm` reflection-driven relational mapping layer
(package `sorm`, file containing `ScanRows`, `SaveRecord`, `CreateRecord`,
`ReplaceRecord`, `DeleteRecord`, `isZero` and the metadata helpers), together
with theorems settling the frozen claims about it.

Conventions of the embedding:
* A record type is a `List Field` (the ordered field descriptors produced by
  the external `reflectutil` library; `Field` carries exactly the pieces of
  metadata the source reads: the declared Go name, the `sql` struct tag
  (value and parameters), the `table` tag, the `readonly` tag, and the Go
  zero value of the field's type).
* A record value is a `List Value` aligned positionally with the field list;
  `Value` is the universe of field values, with `reflect.DeepEqual`
  modelled as structural (decidable) equality.
* The snake-case naming conversion performed by the external `snaker`
  library is kept abstract: every definition takes it as an explicit
  function argument `cts` (for CamelToSnake), and concrete examples
  instantiate it with a stand-in that agrees with the library on the names
  they use.
* The process-wide parameter marker string is passed explicitly as `pfx`.
* Database interaction is modelled by traces of events: each mutating
  operation returns the list of statements (and lifecycle-hook invocations)
  it performs, plus an `Except` carrying the error or the final record
  values.  Results the database would produce (the fetched snapshot for
  `SaveRecord`, the generated identity for `CreateRecord`, scan outcomes
  for `ScanRows`) are parameters.
-/

namespace Sorm

/-- Universe of field values appearing in records.  `reflect.DeepEqual` is
structural equality on this type.  `nil` doubles as the untyped nil. -/
inductive Value where
  | nil : Value
  | vInt : Int → Value
  | vStr : String → Value
  | vBool : Bool → Value
  | vStrList : List String → Value
deriving DecidableEq, Inhabited, Repr

deriving instance DecidableEq for Except

/-- The parsed `sql` struct tag: its value (the part before the first comma)
and its parameters (name/value pairs such as `id`, `readonly`,
`table:<name>`).  Models `reflectutil.Tag` as used by the source. -/
structure SqlTag where
  value : String
  params : List (String × String)
deriving DecidableEq, Inhabited, Repr

/-- One field descriptor, modelling the parts of `reflectutil.Field` that
the source reads: `Name()`, `Tag("sql")`, `Tag("table")`, `Tag("readonly")`.
`zero` is the Go zero value of the field's type (what `reflect.New`
produces), needed to model freshly allocated records. -/
structure Field where
  name : String
  sqlTag : Option SqlTag := none
  tableTag : Option String := none
  readonlyTag : Option String := none
  zero : Value := Value.nil
deriving DecidableEq, Inhabited, Repr

/-- A field is excluded iff its `sql` tag value is `-`
(`Fields().WithoutTagValue("sql", "-")` drops exactly these). -/
def Field.isExcluded (f : Field) : Bool :=
  match f.sqlTag with
  | some t => t.value == "-"
  | none => false

/-- Whether the `sql` tag carries an `id` parameter
(`t.Parameter("id") != nil`). -/
def Field.hasIdParam (f : Field) : Bool :=
  match f.sqlTag with
  | some t => (t.params.lookup "id").isSome
  | none => false

/-- The readonly test `SaveRecord` applies: a structured `readonly`
parameter on the `sql` tag, or a legacy standalone `readonly` tag with a
non-empty value. -/
def Field.isReadonlySkip (f : Field) : Bool :=
  (match f.sqlTag with
   | some t => (t.params.lookup "readonly").isSome
   | none => false)
  || (match f.readonlyTag with
      | some s => s != ""
      | none => false)

/-- Value of the `table` parameter on the `sql` tag, when present and
non-empty (`t.Parameter("table")`). -/
def Field.sqlTableParam (f : Field) : Option String :=
  match f.sqlTag with
  | some t =>
    match t.params.lookup "table" with
    | some v => if v != "" then some v else none
    | none => none
  | none => none

/-- Per-field table override as `getSQLTableName` probes it: the `table`
tag first, then the `table` parameter of the `sql` tag. -/
def Field.tableOverride (f : Field) : Option String :=
  match f.tableTag with
  | some t => if t != "" then some t else f.sqlTableParam
  | none => f.sqlTableParam

/-- Go source: `makeParameter`.  Marker prefix defaults to `$` when the
process-wide setting is empty. -/
def makeParameter (pfx : String) (n : Nat) : String :=
  (if pfx = "" then "$" else pfx) ++ toString n

/-- Go source: `getSQLColumnName`.  `cts` is the snake-case conversion of
the external naming library. -/
def getSQLColumnName (cts : String → String) (f : Field) : String :=
  match f.sqlTag with
  | some t => if t.value != "" then t.value else cts f.name
  | none => cts f.name

/-- Go source: `getSQLTableName`.  First field with a table override wins;
otherwise the pluralized snake-case type name. -/
def getSQLTableName (cts : String → String) (typeName : String)
    (flds : List Field) : String :=
  match flds.findSome? Field.tableOverride with
  | some t => t
  | none => cts typeName ++ "s"

/-- Fields paired with their indices (the access paths used via
`f.Index()` / `FieldByIndex`). -/
def enumFields (flds : List Field) : List (Nat × Field) :=
  flds.enum

/-- The non-excluded fields with their indices, the list
`vdesc.Fields().WithoutTagValue("sql", "-")` iterated by the mutating
operations. -/
def nonExcludedEnum (flds : List Field) : List (Nat × Field) :=
  (enumFields flds).filter (fun p => !p.2.isExcluded)

/-- Index of the first field with the given declared name
(`vdesc.Field(name)` / `FieldByName`). -/
def fieldByNameIdx (flds : List Field) (name : String) : Option Nat :=
  match (enumFields flds).find? (fun p => p.2.name == name) with
  | some (j, _) => some j
  | none => none

/-- Go source: `getSQLIDFields`, returning the indices of the identity
fields: non-excluded fields carrying an `id` tag parameter, else the field
literally named `ID` when present and not excluded. -/
def getSQLIDFields (flds : List Field) : List Nat :=
  let r := (nonExcludedEnum flds).filter (fun p => p.2.hasIdParam)
  if r.isEmpty then
    match (enumFields flds).find? (fun p => p.2.name == "ID") with
    | some (_, f) =>
      if f.isExcluded then []
      else
        match fieldByNameIdx flds "ID" with
        | some j => [j]
        | none => []
    | none => []
  else r.map (·.1)

/-- Go source: `isZero`, the type switch deciding whether a value counts
as empty/zero.  The `vBool` case is the `reflect.ValueOf(i).IsZero()`
default branch; `vStrList` is the `[]string` case. -/
def isZero : Value → Bool
  | Value.nil => true
  | Value.vInt n => n == 0
  | Value.vStr s => s == ""
  | Value.vBool b => b == false
  | Value.vStrList xs => xs.isEmpty

/-! ### Row decoding (`ScanRows`)

The embedding covers the path for record types that do not implement the
override-scan capability (`isOverrideScanner = false` in the source). -/

/-- Resolution of one result column name to a field index, the body of the
labelled `outer` loop in `ScanRows`: first the unique-match lookup
`Fields().WithTagValue("sql", name)` (used only when exactly one field
carries that tag value), then `vdesc.Field(name)` by declared name, then
the snake-case default name. -/
def resolveColumn (cts : String → String) (flds : List Field)
    (name : String) : Option Nat :=
  match (enumFields flds).filter
      (fun p => match p.2.sqlTag with
                | some t => t.value == name
                | none => false) with
  | [(j, _)] => some j
  | _ =>
    match (enumFields flds).find? (fun p => p.2.name == name) with
    | some (j, _) => some j
    | none =>
      match (enumFields flds).find? (fun p => cts p.2.name == name) with
      | some (j, _) => some j
      | none => none

/-- Resolution of all result columns: the per-column indices together with
the accumulated list of column names that matched no field. -/
def resolveColumns (cts : String → String) (flds : List Field)
    (names : List String) : List Nat × List String :=
  names.foldl
    (fun acc name =>
      match resolveColumn cts flds name with
      | some j => (acc.1 ++ [j], acc.2)
      | none => (acc.1, acc.2 ++ [name]))
    ([], [])

/-- Rendering of a `[]string` through Go's `%v` verb, used in the
unresolved-columns error message. -/
def goFmtList (xs : List String) : String :=
  "[" ++ String.intercalate " " xs ++ "]"

/-- One result row as the driver delivers it: either a row of cell values,
or a row on which `rows.Scan` fails (a conversion error). -/
inductive RowInput where
  | good : List Value → RowInput
  | bad : RowInput
deriving DecidableEq, Repr

/-- Decoding of one row: a freshly allocated record (all zero values) whose
field `indexes[i]` receives cell `i` of the row. -/
def decodeRow (flds : List Field) (indexes : List Nat)
    (cells : List Value) : List Value :=
  indexes.enum.foldl
    (fun rec p => rec.set p.2 (cells.getD p.1 Value.nil))
    (flds.map Field.zero)

/-- The `for rows.Next()` loop of `ScanRows`: decoded records accumulate in
the local slice `arr`; a failing `rows.Scan` aborts immediately. -/
def scanLoop (flds : List Field) (indexes : List Nat) :
    List RowInput → List (List Value) → Except String (List (List Value))
  | [], arr => Except.ok arr
  | RowInput.good cells :: rest, arr =>
    scanLoop flds indexes rest (arr ++ [decodeRow flds indexes cells])
  | RowInput.bad :: _, _ => Except.error "ScanRows: scan failed"

/-- Go source: `ScanRows` past its shape checks, for a target that is a
pointer to a slice of a struct type named `typeName` with fields `flds`.
`names` are the result column names and `rows` the result rows. -/
def scanRows (cts : String → String) (typeName : String) (flds : List Field)
    (names : List String) (rows : List RowInput) :
    Except String (List (List Value)) :=
  let rm := resolveColumns cts flds names
  if rm.2 ≠ [] then
    Except.error ("couldn't find fields on " ++ typeName ++
      " for these sql fields: " ++ goFmtList rm.2)
  else
    scanLoop flds rm.1 rows []

/-- The caller-visible contents of the output slice after `ScanRows`
returns: the local slice `arr` is assigned through the pointer only on
success (`ptr.Elem().Set(arr)` is the last statement before `return nil`),
so on any error the slice keeps its previous contents. -/
def scanRowsFinalOut (cts : String → String) (typeName : String)
    (flds : List Field) (names : List String) (rows : List RowInput)
    (prevOut : List (List Value)) : List (List Value) :=
  match scanRows cts typeName flds names rows with
  | Except.ok arr => arr
  | Except.error _ => prevOut

/-! ### Mutating operations

Each operation is modelled as a function from its input (and the responses
the database would give) to the trace of events it performs plus its
result.  The `Except.ok` payload carries the final in-memory record
values. -/

/-- Observable events of one operation: lifecycle hook invocations and the
statements handed to the transaction (`exec` for `ExecContext`, `query`
for `QueryContext`/`QueryRowContext`). -/
inductive Event where
  | hookBefore : String → Event
  | hookAfter : String → Event
  | exec : String → List Value → Event
  | query : String → List Value → Event
deriving DecidableEq, Repr

/-- Whether an event is a statement reaching the database. -/
def Event.isStmt : Event → Bool
  | Event.exec _ _ => true
  | Event.query _ _ => true
  | _ => false

/-- Whether an event is an `ExecContext` statement. -/
def Event.isExec : Event → Bool
  | Event.exec _ _ => true
  | _ => false

/-- The statements of a trace, hooks filtered out. -/
def stmtEvents (tr : List Event) : List Event :=
  tr.filter Event.isStmt

/-- The input of a mutating operation: the dynamic properties of the Go
`interface{}` argument that the source inspects.  Hook presence and hook
outcomes model the capability checks `input.(BeforeXxxer)` and the error
the hook returns; `isPtr`/`isStruct` model the reflection shape checks. -/
structure OpInput where
  hasBeforeHook : Bool := false
  beforeHookErr : Option String := none
  hasAfterHook : Bool := false
  afterHookErr : Option String := none
  isPtr : Bool := true
  isStruct : Bool := true
  typeName : String := ""
  flds : List Field := []
  vals : List Value := []
deriving Inhabited

/-- The identity `where` clause of `SaveRecord`, together with the value
list it appends to (separator string `" and "`). -/
def saveWhere (cts : String → String) (pfx : String) (flds : List Field)
    (vals : List Value) :
    List Nat → String → List Value → String × List Value
  | [], w, values => (w, values)
  | i :: rest, w, values =>
    saveWhere cts pfx flds vals rest
      (w ++ (if w = "" then "where " else " and ") ++
        getSQLColumnName cts (flds.getD i default) ++ " = " ++
        makeParameter pfx (values.length + 1))
      (values ++ [vals.getD i Value.nil])

/-- The identity `where` clause of `DeleteRecord` (separator string
`"and "`, as in the source). -/
def deleteWhere (cts : String → String) (pfx : String) (flds : List Field)
    (vals : List Value) :
    List Nat → String → List Value → String × List Value
  | [], w, values => (w, values)
  | i :: rest, w, values =>
    deleteWhere cts pfx flds vals rest
      (w ++ (if w = "" then "where " else "and ") ++
        getSQLColumnName cts (flds.getD i default) ++ " = " ++
        makeParameter pfx (values.length + 1))
      (values ++ [vals.getD i Value.nil])

/-- The diff loop of `SaveRecord` over the non-excluded fields: skip
readonly fields, skip fields whose current value `DeepEqual`s the fetched
snapshot value, and append `column = marker` plus the new value
otherwise. -/
def saveDiff (cts : String → String) (pfx : String) (prev cur : List Value) :
    List (Nat × Field) → List Value → String → Bool →
      List Value × String × Bool
  | [], values, fields, modify => (values, fields, modify)
  | (i, f) :: rest, values, fields, modify =>
    if f.isReadonlySkip then
      saveDiff cts pfx prev cur rest values fields modify
    else if prev.getD i Value.nil = cur.getD i Value.nil then
      saveDiff cts pfx prev cur rest values fields modify
    else
      saveDiff cts pfx prev cur rest
        (values ++ [cur.getD i Value.nil])
        (fields ++ (if fields = "" then "set " else ", ") ++
          getSQLColumnName cts f ++ " = " ++
          makeParameter pfx (values.length + 1))
        true

/-- The capability check and invocation of a `BeforeXxx` hook at the very
top of each mutating operation, before any reflection on the input. -/
def withBeforeHook (hookName errPfx : String) (inp : OpInput)
    (body : List Event × Except String (List Value)) :
    List Event × Except String (List Value) :=
  if inp.hasBeforeHook then
    match inp.beforeHookErr with
    | some e => ([Event.hookBefore hookName], Except.error (errPfx ++ e))
    | none => (Event.hookBefore hookName :: body.1, body.2)
  else body

/-- The capability check and invocation of an `AfterXxx` hook after the
statement has executed; a failing hook surfaces its error but the
statement has already run. -/
def afterHookWrap (hookName errPfx : String) (inp : OpInput)
    (tr : List Event) (res : List Value) :
    List Event × Except String (List Value) :=
  if inp.hasAfterHook then
    (tr ++ [Event.hookAfter hookName],
     match inp.afterHookErr with
     | some e => Except.error (errPfx ++ e)
     | none => Except.ok res)
  else (tr, Except.ok res)

/-- The field loop of `CreateRecord` over the non-excluded fields: when the
identity is the single default `ID` field and its current value is zero,
that field is skipped and `fetchID` is set; every other field contributes
its column, a sequentially numbered marker, and its current value. -/
def createLoop (cts : String → String) (pfx : String) (basicID : Bool)
    (cur : List Value) :
    List (Nat × Field) → List String → List String → List Value → Bool →
      List String × List String × List Value × Bool
  | [], a1, a2, values, fetchID => (a1, a2, values, fetchID)
  | (i, f) :: rest, a1, a2, values, fetchID =>
    if basicID && f.name == "ID" && isZero (cur.getD i Value.nil) then
      createLoop cts pfx basicID cur rest a1 a2 values true
    else
      createLoop cts pfx basicID cur rest
        (a1 ++ [getSQLColumnName cts f])
        (a2 ++ [makeParameter pfx (a1.length + 1)])
        (values ++ [cur.getD i Value.nil]) fetchID

/-- The field loop of `ReplaceRecord` over the non-excluded fields: every
field contributes unconditionally. -/
def replaceLoop (cts : String → String) (pfx : String) (cur : List Value) :
    List (Nat × Field) → List String → List String → List Value →
      List String × List String × List Value
  | [], a1, a2, values => (a1, a2, values)
  | (i, f) :: rest, a1, a2, values =>
    replaceLoop cts pfx cur rest
      (a1 ++ [getSQLColumnName cts f])
      (a2 ++ [makeParameter pfx (a1.length + 1)])
      (values ++ [cur.getD i Value.nil])

/-- Go source: `SaveRecord` after its `BeforeSave` hook: shape checks,
identity resolution, snapshot fetch through `FindFirstWhere` (whose result
is the parameter `fetched`; `none` models `sql.ErrNoRows` or a query
failure), the diff, and the conditional `update`. -/
def saveRecordMain (cts : String → String) (pfx : String) (inp : OpInput)
    (fetched : Option (List Value)) :
    List Event × Except String (List Value) :=
  if !inp.isPtr then
    ([], Except.error "SaveRecord: expected input to be a pointer")
  else if !inp.isStruct then
    ([], Except.error "SaveRecord: expected input to be pointer to struct")
  else
    let ids := getSQLIDFields inp.flds
    if ids.isEmpty then
      ([], Except.error "SaveRecord: couldn't determine ID field(s)")
    else
      let wv := saveWhere cts pfx inp.flds inp.vals ids "" []
      let tbl := getSQLTableName cts inp.typeName inp.flds
      let fetchQ := "select * from " ++ tbl ++ " " ++ wv.1 ++ " limit 1"
      match fetched with
      | none =>
        ([Event.query fetchQ wv.2],
         Except.error "SaveRecord: couldn't find record: sql: no rows in result set")
      | some prev =>
        let dv := saveDiff cts pfx prev inp.vals (nonExcludedEnum inp.flds)
          wv.2 "" false
        if !dv.2.2 then ([Event.query fetchQ wv.2], Except.ok inp.vals)
        else
          let q := "update " ++ tbl ++ " " ++ dv.2.1 ++ " " ++ wv.1
          afterHookWrap "AfterSave"
            "SaveRecord: AfterSave callback returned an error: " inp
            [Event.query fetchQ wv.2, Event.exec q dv.1] inp.vals

/-- Go source: `SaveRecord` (hook-dispatching wrapper included). -/
def saveRecord (cts : String → String) (pfx : String) (inp : OpInput)
    (fetched : Option (List Value)) :
    List Event × Except String (List Value) :=
  withBeforeHook "BeforeSave"
    "SaveRecord: BeforeSave callback returned an error: " inp
    (saveRecordMain cts pfx inp fetched)

/-- Go source: `CreateRecord` after its `BeforeCreate` hook.  `insertOk`
models whether the `insert` statement succeeds; `genId` is the value the
follow-up `select last_insert_rowid()` would scan into the `ID` field. -/
def createRecordMain (cts : String → String) (pfx : String) (inp : OpInput)
    (insertOk : Bool) (genId : Value) :
    List Event × Except String (List Value) :=
  if !inp.isPtr then
    ([], Except.error "CreateRecord: expected input to be a pointer")
  else if !inp.isStruct then
    ([], Except.error "CreateRecord: expected input to be pointer to struct")
  else
    let ids := getSQLIDFields inp.flds
    if ids.isEmpty then
      ([], Except.error "CreateRecord: couldn't determine ID field(s)")
    else
      let basicID :=
        match ids with
        | [i] => (inp.flds.getD i default).name == "ID"
        | _ => false
      let parts := createLoop cts pfx basicID inp.vals
        (nonExcludedEnum inp.flds) [] [] [] false
      let tbl := getSQLTableName cts inp.typeName inp.flds
      let q := "insert into " ++ tbl ++ " (" ++
        String.intercalate ", " parts.1 ++ ") values (" ++
        String.intercalate ", " parts.2.1 ++ ")"
      if !insertOk then
        ([Event.exec q parts.2.2.1], Except.error "CreateRecord: insert failed")
      else if basicID && parts.2.2.2 then
        match fieldByNameIdx inp.flds "ID" with
        | some j =>
          afterHookWrap "AfterCreate"
            "CreateRecord: AfterCreate callback returned an error: " inp
            [Event.exec q parts.2.2.1,
             Event.query "select last_insert_rowid()" []]
            (inp.vals.set j genId)
        | none =>
          afterHookWrap "AfterCreate"
            "CreateRecord: AfterCreate callback returned an error: " inp
            [Event.exec q parts.2.2.1,
             Event.query "select last_insert_rowid()" []] inp.vals
      else
        afterHookWrap "AfterCreate"
          "CreateRecord: AfterCreate callback returned an error: " inp
          [Event.exec q parts.2.2.1] inp.vals

/-- Go source: `CreateRecord` (hook-dispatching wrapper included). -/
def createRecord (cts : String → String) (pfx : String) (inp : OpInput)
    (insertOk : Bool) (genId : Value) :
    List Event × Except String (List Value) :=
  withBeforeHook "BeforeCreate"
    "CreateRecord: BeforeCreate callback returned an error: " inp
    (createRecordMain cts pfx inp insertOk genId)

/-- Go source: `ReplaceRecord` after its `BeforeReplace` hook. -/
def replaceRecordMain (cts : String → String) (pfx : String)
    (inp : OpInput) : List Event × Except String (List Value) :=
  if !inp.isPtr then
    ([], Except.error "ReplaceRecord: expected input to be a pointer")
  else if !inp.isStruct then
    ([], Except.error "ReplaceRecord: expected input to be pointer to struct")
  else
    let ids := getSQLIDFields inp.flds
    if ids.isEmpty then
      ([], Except.error "ReplaceRecord: couldn't determine ID field(s)")
    else
      let parts := replaceLoop cts pfx inp.vals (nonExcludedEnum inp.flds)
        [] [] []
      let tbl := getSQLTableName cts inp.typeName inp.flds
      let q := "insert or replace into " ++ tbl ++ " (" ++
        String.intercalate ", " parts.1 ++ ") values (" ++
        String.intercalate ", " parts.2.1 ++ ")"
      afterHookWrap "AfterReplace"
        "ReplaceRecord: AfterReplace callback returned an error: " inp
        [Event.exec q parts.2.2] inp.vals

/-- Go source: `ReplaceRecord` (hook-dispatching wrapper included). -/
def replaceRecord (cts : String → String) (pfx : String) (inp : OpInput) :
    List Event × Except String (List Value) :=
  withBeforeHook "BeforeReplace"
    "ReplaceRecord: BeforeReplace callback returned an error: " inp
    (replaceRecordMain cts pfx inp)

/-- Go source: `DeleteRecord` after its `BeforeDelete` hook. -/
def deleteRecordMain (cts : String → String) (pfx : String)
    (inp : OpInput) : List Event × Except String (List Value) :=
  if !inp.isPtr then
    ([], Except.error "DeleteRecord: expected input to be a pointer")
  else if !inp.isStruct then
    ([], Except.error "DeleteRecord: expected input to be pointer to struct")
  else
    let ids := getSQLIDFields inp.flds
    if ids.isEmpty then
      ([], Except.error "DeleteRecord: couldn't determine ID field(s)")
    else
      let wv := deleteWhere cts pfx inp.flds inp.vals ids "" []
      let tbl := getSQLTableName cts inp.typeName inp.flds
      let q := "delete from " ++ tbl ++ " " ++ wv.1
      afterHookWrap "AfterDelete"
        "DeleteRecord: AfterDelete callback returned an error: " inp
        [Event.exec q wv.2] inp.vals

/-- Go source: `DeleteRecord` (hook-dispatching wrapper included). -/
def deleteRecord (cts : String → String) (pfx : String) (inp : OpInput) :
    List Event × Except String (List Value) :=
  withBeforeHook "BeforeDelete"
    "DeleteRecord: BeforeDelete callback returned an error: " inp
    (deleteRecordMain cts pfx inp)

/-! ### Spec-side definition for the column-resolution refinement claim -/

/-- Column resolution exactly as the claim words it, for comparison with
`resolveColumn`: three stages tried in order with the first matching FIELD
winning — in particular, stage one picks the first field whose explicit
tag value equals the column name, with no uniqueness requirement.  This
definition follows the claim's words, not the source. -/
def claimResolveColumn (cts : String → String) (flds : List Field)
    (name : String) : Option Nat :=
  match (enumFields flds).find?
      (fun p => match p.2.sqlTag with
                | some t => t.value == name
                | none => false) with
  | some (j, _) => some j
  | none =>
    match (enumFields flds).find? (fun p => p.2.name == name) with
    | some (j, _) => some j
    | none =>
      match (enumFields flds).find? (fun p => cts p.2.name == name) with
      | some (j, _) => some j
      | none => none

/-! ### Concrete fixtures for witnesses and counterexamples -/

/-- Stand-in for the snake-case conversion of the external naming library,
fixed on the identifiers the examples use (it agrees with the library's
converter on these names). -/
def snakeEx : String → String
  | "SimpleObject" => "simple_object"
  | "CompositeIDObject" => "composite_id_object"
  | "ID" => "id"
  | "ID1" => "id_1"
  | "ID2" => "id_2"
  | "Name" => "name"
  | "Secret" => "secret"
  | s => s.toLower

/-- The `ID int` field of the test types (no tags). -/
def fID : Field := { name := "ID", zero := Value.vInt 0 }

/-- The `Name string` field of the test types (no tags). -/
def fName : Field := { name := "Name", zero := Value.vStr "" }

/-- Fields of the test type `SimpleObject`. -/
def simpleFlds : List Field := [fID, fName]

/-- The `ID1 int `sql:",id"`` field of `CompositeIDObject`. -/
def fID1 : Field :=
  { name := "ID1", sqlTag := some ⟨"", [("id", "")]⟩, zero := Value.vInt 0 }

/-- The `ID2 int `sql:",id"`` field of `CompositeIDObject`. -/
def fID2 : Field :=
  { name := "ID2", sqlTag := some ⟨"", [("id", "")]⟩, zero := Value.vInt 0 }

/-- Fields of the test type `CompositeIDObject`. -/
def compFlds : List Field := [fID1, fID2, fName]

/-- A field with an excluded (`sql:"-"`) column. -/
def fSecret : Field :=
  { name := "Secret", sqlTag := some ⟨"-", []⟩, zero := Value.vStr "" }

/-- Fields of a type with one excluded field. -/
def exclFlds : List Field := [fID, fSecret]

/-- Two fields sharing the same explicit tag value (for the duplicate-tag
resolution counterexample). -/
def dupTagFlds : List Field :=
  [{ name := "A", sqlTag := some ⟨"x", []⟩, zero := Value.nil },
   { name := "B", sqlTag := some ⟨"x", []⟩, zero := Value.nil }]

/-! ### Helper lemmas -/

theorem find?_eq_head?_filter {α : Type} (p : α → Bool) (l : List α) :
    l.find? p = (l.filter p).head? := by
  induction l with
  | nil => rfl
  | cons a l ih =>
    by_cases h : p a
    · rw [List.find?_cons_of_pos _ h, List.filter_cons_of_pos h, List.head?_cons]
    · rw [List.find?_cons_of_neg _ h, List.filter_cons_of_neg h, ih]

theorem getD_of_mem_enumFields {flds : List Field} {p : Nat × Field}
    (hp : p ∈ enumFields flds) (d : Field) : flds.getD p.1 d = p.2 := by
  have hp' : p ∈ flds.enum := hp
  have h := List.mem_enum_iff_getElem?.mp hp'
  simp [List.getD_eq_getElem?_getD, h]

theorem getD_set_of_ne {α : Type} {i j : Nat} (h : i ≠ j) (l : List α)
    (w d : α) : (l.set i w).getD j d = l.getD j d := by
  simp [List.getD_eq_getElem?_getD, List.getElem?_set_ne h]

/-- A run of fields that are all readonly or unmodified leaves the diff
accumulators untouched. -/
theorem saveDiff_skip_run (cts : String → String) (pfx : String)
    (prev cur : List Value) :
    ∀ (l rest : List (Nat × Field)) (values : List Value) (fields : String)
      (modify : Bool),
      (∀ p ∈ l, p.2.isReadonlySkip = true ∨
        prev.getD p.1 Value.nil = cur.getD p.1 Value.nil) →
      saveDiff cts pfx prev cur (l ++ rest) values fields modify =
        saveDiff cts pfx prev cur rest values fields modify
  | [], _, _, _, _, _ => rfl
  | (i, f) :: l, rest, values, fields, modify, h => by
    have hh := h (i, f) (List.mem_cons_self _ _)
    have ht : ∀ p ∈ l, p.2.isReadonlySkip = true ∨
        prev.getD p.1 Value.nil = cur.getD p.1 Value.nil :=
      fun p hp => h p (List.mem_cons_of_mem _ hp)
    by_cases hr : f.isReadonlySkip
    · simp only [List.cons_append, saveDiff, hr, if_true]
      exact saveDiff_skip_run cts pfx prev cur l rest values fields modify ht
    · have he : prev.getD i Value.nil = cur.getD i Value.nil := by
        rcases hh with hh | hh
        · exact absurd hh (by simpa using hr)
        · exact hh
      simp only [List.cons_append, saveDiff, hr, if_false, he, if_true,
        Bool.false_eq_true]
      exact saveDiff_skip_run cts pfx prev cur l rest values fields modify ht

/-- The diff over a field list with exactly one modified, non-readonly
field produces a SET list containing only that field's column, with the
new value appended to the argument list. -/
theorem saveDiff_single (cts : String → String) (pfx : String)
    (prev cur : List Value) (l1 l2 : List (Nat × Field)) (k : Nat)
    (fk : Field) (values0 : List Value)
    (h1 : ∀ p ∈ l1, p.2.isReadonlySkip = true ∨
      prev.getD p.1 Value.nil = cur.getD p.1 Value.nil)
    (h2 : ∀ p ∈ l2, p.2.isReadonlySkip = true ∨
      prev.getD p.1 Value.nil = cur.getD p.1 Value.nil)
    (hkro : fk.isReadonlySkip = false)
    (hkne : prev.getD k Value.nil ≠ cur.getD k Value.nil) :
    saveDiff cts pfx prev cur (l1 ++ (k, fk) :: l2) values0 "" false =
      (values0 ++ [cur.getD k Value.nil],
       "set " ++ getSQLColumnName cts fk ++ " = " ++
         makeParameter pfx (values0.length + 1),
       true) := by
  rw [saveDiff_skip_run cts pfx prev cur l1 ((k, fk) :: l2) values0 "" false h1]
  simp only [saveDiff, hkro, Bool.false_eq_true, if_false, hkne, if_true]
  rw [show (l2 : List (Nat × Field)) = l2 ++ [] from (List.append_nil l2).symm,
    saveDiff_skip_run cts pfx prev cur l2 [] _ _ _ h2]
  simp [saveDiff, String.empty_append]

/-- The column-resolution fold: resolved indices in column order, and the
missing list holding exactly the unresolvable column names, in order. -/
theorem resolveColumns_foldl (cts : String → String) (flds : List Field)
    (names : List String) :
    ∀ acc : List Nat × List String,
      names.foldl
        (fun acc name =>
          match resolveColumn cts flds name with
          | some j => (acc.1 ++ [j], acc.2)
          | none => (acc.1, acc.2 ++ [name])) acc =
      (acc.1 ++ names.filterMap (resolveColumn cts flds),
       acc.2 ++ names.filter (fun n => (resolveColumn cts flds n).isNone)) := by
  induction names with
  | nil => intro acc; simp
  | cons n names ih =>
    intro acc
    simp only [List.foldl_cons]
    cases h : resolveColumn cts flds n with
    | some j =>
      simp [h, ih, List.filterMap_cons, List.filter_cons]
    | none =>
      simp [h, ih, List.filterMap_cons, List.filter_cons]

/-- Closed form of `resolveColumns`. -/
theorem resolveColumns_spec (cts : String → String) (flds : List Field)
    (names : List String) :
    resolveColumns cts flds names =
      (names.filterMap (resolveColumn cts flds),
       names.filter (fun n => (resolveColumn cts flds n).isNone)) := by
  simpa [resolveColumns] using resolveColumns_foldl cts flds names ([], [])

/-- The row loop on an all-good row list decodes every row in order,
appending to the accumulator. -/
theorem scanLoop_all_good (flds : List Field) (idxs : List Nat) :
    ∀ (rows : List (List Value)) (arr : List (List Value)),
      scanLoop flds idxs (rows.map RowInput.good) arr =
        Except.ok (arr ++ rows.map (decodeRow flds idxs)) := by
  intro rows
  induction rows with
  | nil => intro arr; simp [scanLoop]
  | cons r rows ih => intro arr; simp [scanLoop, ih]

/-- The row loop aborts at the first failing scan, whatever follows it. -/
theorem scanLoop_abort (flds : List Field) (idxs : List Nat) :
    ∀ (rows : List (List Value)) (rest : List RowInput)
      (arr : List (List Value)),
      scanLoop flds idxs (rows.map RowInput.good ++ RowInput.bad :: rest) arr =
        Except.error "ScanRows: scan failed" := by
  intro rows
  induction rows with
  | nil => intro rest arr; simp [scanLoop]
  | cons r rows ih => intro rest arr; simp [scanLoop, ih]

/-- A before-hook that is absent or succeeds leaves the operation's result
and statements unchanged. -/
theorem withBeforeHook_noErr (hookName errPfx : String) (inp : OpInput)
    (body : List Event × Except String (List Value))
    (h : inp.beforeHookErr = none) :
    (withBeforeHook hookName errPfx inp body).2 = body.2 ∧
    stmtEvents (withBeforeHook hookName errPfx inp body).1 =
      stmtEvents body.1 ∧
    (withBeforeHook hookName errPfx inp body).1.filter Event.isExec =
      body.1.filter Event.isExec := by
  unfold withBeforeHook
  cases hB : inp.hasBeforeHook <;>
    simp [h, stmtEvents, Event.isStmt, Event.isExec, List.filter_cons]

/-- After-hook wrapping never changes the statements of a trace. -/
theorem afterHookWrap_stmts (hookName errPfx : String) (inp : OpInput)
    (tr : List Event) (res : List Value) :
    stmtEvents (afterHookWrap hookName errPfx inp tr res).1 =
      stmtEvents tr ∧
    (afterHookWrap hookName errPfx inp tr res).1.filter Event.isExec =
      tr.filter Event.isExec := by
  unfold afterHookWrap
  cases inp.hasAfterHook <;>
    simp [stmtEvents, Event.isStmt, Event.isExec, List.filter_append]

/-- The trace of a before-hook wrapper depends only on the hook fields and
the body's trace, not on the record values. -/
theorem withBeforeHook_fst (hookName errPfx : String) (inp inp' : OpInput)
    (b1 b2 : List Event × Except String (List Value))
    (hh : inp'.hasBeforeHook = inp.hasBeforeHook)
    (he : inp'.beforeHookErr = inp.beforeHookErr)
    (hb : b1.1 = b2.1) :
    (withBeforeHook hookName errPfx inp' b1).1 =
      (withBeforeHook hookName errPfx inp b2).1 := by
  unfold withBeforeHook
  rw [hh, he]
  cases inp.hasBeforeHook <;> cases inp.beforeHookErr <;> simp [hb]

/-- The trace of an after-hook wrapper depends only on the hook fields and
the statements, not on the result record. -/
theorem afterHookWrap_fst (hookName errPfx : String) (inp inp' : OpInput)
    (tr : List Event) (r1 r2 : List Value)
    (hh : inp'.hasAfterHook = inp.hasAfterHook) :
    (afterHookWrap hookName errPfx inp' tr r1).1 =
      (afterHookWrap hookName errPfx inp tr r2).1 := by
  unfold afterHookWrap
  rw [hh]
  cases inp.hasAfterHook <;> simp

/-- An absent or succeeding after-hook yields the wrapped result. -/
theorem afterHookWrap_ok (hookName errPfx : String) (inp : OpInput)
    (tr : List Event) (res : List Value) (h : inp.afterHookErr = none) :
    (afterHookWrap hookName errPfx inp tr res).2 = Except.ok res := by
  unfold afterHookWrap
  cases inp.hasAfterHook <;> simp [h]

/-- The create loop over fields none of which triggers the default-ID
skip. -/
theorem createLoop_no_skip (cts : String → String) (pfx : String)
    (basicID : Bool) (cur : List Value) :
    ∀ (l : List (Nat × Field)) (a1 a2 : List String) (values : List Value)
      (fid : Bool),
      (∀ p ∈ l,
        (basicID && p.2.name == "ID" && isZero (cur.getD p.1 Value.nil)) = false) →
      createLoop cts pfx basicID cur l a1 a2 values fid =
        (a1 ++ l.map (fun p => getSQLColumnName cts p.2),
         a2 ++ (List.range l.length).map
           (fun t => makeParameter pfx (a1.length + 1 + t)),
         values ++ l.map (fun p => cur.getD p.1 Value.nil),
         fid) := by
  intro l
  induction l with
  | nil => intro a1 a2 values fid _; simp [createLoop]
  | cons p l ih =>
    intro a1 a2 values fid h
    obtain ⟨i, f⟩ := p
    have h0 := h (i, f) (List.mem_cons_self _ _)
    simp only [createLoop, h0, Bool.false_eq_true, if_false]
    rw [ih _ _ _ _ (fun q hq => h q (List.mem_cons_of_mem _ hq))]
    simp only [List.map_cons, List.length_append, List.length_cons,
      List.length_nil, List.length_map, List.append_assoc,
      List.singleton_append, List.length_range, Nat.zero_add,
      List.range_succ_eq_map, List.map_map, Prod.mk.injEq]
    refine ⟨trivial, ?_, trivial⟩
    refine congrArg (fun t => a2 ++ t) ?_
    refine congrArg₂ List.cons (congrArg (makeParameter pfx) (by omega)) ?_
    exact List.map_congr_left fun t _ =>
      congrArg (makeParameter pfx) (by omega)

/-- The create loop when the default-ID skip fires exactly at one listed
field (`basicID` is true, the field is named `ID`, and its current value
is zero): every other field contributes, the `ID` column is omitted, and
the fetch flag is set. -/
theorem createLoop_skip_middle (cts : String → String) (pfx : String)
    (cur : List Value) (i : Nat) (fi : Field)
    (hskip : ((true : Bool) && fi.name == "ID" &&
      isZero (cur.getD i Value.nil)) = true) :
    ∀ (l1 l2 : List (Nat × Field)) (a1 a2 : List String)
      (values : List Value) (fid : Bool),
      (∀ p ∈ l1,
        ((true : Bool) && p.2.name == "ID" &&
          isZero (cur.getD p.1 Value.nil)) = false) →
      (∀ p ∈ l2,
        ((true : Bool) && p.2.name == "ID" &&
          isZero (cur.getD p.1 Value.nil)) = false) →
      createLoop cts pfx true cur (l1 ++ (i, fi) :: l2) a1 a2 values fid =
        (a1 ++ (l1 ++ l2).map (fun p => getSQLColumnName cts p.2),
         a2 ++ (List.range (l1 ++ l2).length).map
           (fun t => makeParameter pfx (a1.length + 1 + t)),
         values ++ (l1 ++ l2).map (fun p => cur.getD p.1 Value.nil),
         true) := by
  intro l1
  induction l1 with
  | nil =>
    intro l2 a1 a2 values fid _ h2
    simp only [List.nil_append, createLoop, hskip, if_true]
    rw [createLoop_no_skip cts pfx true cur l2 a1 a2 values true h2]
  | cons p l ih =>
    intro l2 a1 a2 values fid h1 h2
    obtain ⟨j, f⟩ := p
    have h0 := h1 (j, f) (List.mem_cons_self _ _)
    simp only [List.cons_append, createLoop, h0, Bool.false_eq_true,
      if_false, List.append_eq]
    rw [ih _ _ _ _ _ (fun q hq => h1 q (List.mem_cons_of_mem _ hq)) h2]
    simp only [List.map_cons, List.length_append, List.length_cons,
      List.length_nil, List.length_map, List.append_assoc,
      List.singleton_append, List.length_range, Nat.zero_add,
      List.range_succ_eq_map, List.map_map, Prod.mk.injEq]
    refine ⟨trivial, ?_, trivial⟩
    refine congrArg (fun t => a2 ++ t) ?_
    refine congrArg₂ List.cons (congrArg (makeParameter pfx) (by omega)) ?_
    exact List.map_congr_left fun t _ =>
      congrArg (makeParameter pfx) (by omega)

/-- Closed form of the replace loop. -/
theorem replaceLoop_spec (cts : String → String) (pfx : String)
    (cur : List Value) :
    ∀ (l : List (Nat × Field)) (a1 a2 : List String) (values : List Value),
      replaceLoop cts pfx cur l a1 a2 values =
        (a1 ++ l.map (fun p => getSQLColumnName cts p.2),
         a2 ++ (List.range l.length).map
           (fun t => makeParameter pfx (a1.length + 1 + t)),
         values ++ l.map (fun p => cur.getD p.1 Value.nil)) := by
  intro l
  induction l with
  | nil => intro a1 a2 values; simp [replaceLoop]
  | cons p l ih =>
    intro a1 a2 values
    obtain ⟨i, f⟩ := p
    simp only [replaceLoop]
    rw [ih]
    simp only [List.map_cons, List.length_append, List.length_cons,
      List.length_nil, List.length_map, List.append_assoc,
      List.singleton_append, List.length_range, Nat.zero_add,
      List.range_succ_eq_map, List.map_map, Prod.mk.injEq]
    refine ⟨trivial, ?_, trivial⟩
    refine congrArg (fun t => a2 ++ t) ?_
    refine congrArg₂ List.cons (congrArg (makeParameter pfx) (by omega)) ?_
    exact List.map_congr_left fun t _ =>
      congrArg (makeParameter pfx) (by omega)

/-- `saveWhere` reads the record only at the identity indices. -/
theorem saveWhere_congr (cts : String → String) (pfx : String)
    (flds : List Field) (vals vals' : List Value) :
    ∀ (ids : List Nat) (w : String) (values : List Value),
      (∀ j ∈ ids, vals'.getD j Value.nil = vals.getD j Value.nil) →
      saveWhere cts pfx flds vals' ids w values =
        saveWhere cts pfx flds vals ids w values := by
  intro ids
  induction ids with
  | nil => intro w values _; rfl
  | cons i ids ih =>
    intro w values h
    have h0 := h i (List.mem_cons_self _ _)
    simp only [saveWhere, h0]
    exact ih _ _ (fun j hj => h j (List.mem_cons_of_mem _ hj))

/-- `deleteWhere` reads the record only at the identity indices. -/
theorem deleteWhere_congr (cts : String → String) (pfx : String)
    (flds : List Field) (vals vals' : List Value) :
    ∀ (ids : List Nat) (w : String) (values : List Value),
      (∀ j ∈ ids, vals'.getD j Value.nil = vals.getD j Value.nil) →
      deleteWhere cts pfx flds vals' ids w values =
        deleteWhere cts pfx flds vals ids w values := by
  intro ids
  induction ids with
  | nil => intro w values _; rfl
  | cons i ids ih =>
    intro w values h
    have h0 := h i (List.mem_cons_self _ _)
    simp only [deleteWhere, h0]
    exact ih _ _ (fun j hj => h j (List.mem_cons_of_mem _ hj))

/-- The create loop reads the record only at the indices it iterates. -/
theorem createLoop_congr (cts : String → String) (pfx : String)
    (basicID : Bool) (cur cur' : List Value) :
    ∀ (l : List (Nat × Field)) (a1 a2 : List String) (values : List Value)
      (fid : Bool),
      (∀ p ∈ l, cur'.getD p.1 Value.nil = cur.getD p.1 Value.nil) →
      createLoop cts pfx basicID cur' l a1 a2 values fid =
        createLoop cts pfx basicID cur l a1 a2 values fid := by
  intro l
  induction l with
  | nil => intro a1 a2 values fid _; rfl
  | cons p l ih =>
    intro a1 a2 values fid h
    obtain ⟨i, f⟩ := p
    have h0 := h (i, f) (List.mem_cons_self _ _)
    have ht := fun q hq => h q (List.mem_cons_of_mem _ hq)
    simp only [createLoop, h0]
    split <;> exact ih _ _ _ _ ht

/-- The replace loop reads the record only at the indices it iterates. -/
theorem replaceLoop_congr (cts : String → String) (pfx : String)
    (cur cur' : List Value) :
    ∀ (l : List (Nat × Field)) (a1 a2 : List String) (values : List Value),
      (∀ p ∈ l, cur'.getD p.1 Value.nil = cur.getD p.1 Value.nil) →
      replaceLoop cts pfx cur' l a1 a2 values =
        replaceLoop cts pfx cur l a1 a2 values := by
  intro l
  induction l with
  | nil => intro a1 a2 values _; rfl
  | cons p l ih =>
    intro a1 a2 values h
    obtain ⟨i, f⟩ := p
    have h0 := h (i, f) (List.mem_cons_self _ _)
    simp only [replaceLoop, h0]
    exact ih _ _ _ (fun q hq => h q (List.mem_cons_of_mem _ hq))

/-- The diff loop reads the snapshot and the record only at the indices it
iterates. -/
theorem saveDiff_congr (cts : String → String) (pfx : String)
    (prev prev' cur cur' : List Value) :
    ∀ (l : List (Nat × Field)) (values : List Value) (fields : String)
      (modify : Bool),
      (∀ p ∈ l, prev'.getD p.1 Value.nil = prev.getD p.1 Value.nil ∧
        cur'.getD p.1 Value.nil = cur.getD p.1 Value.nil) →
      saveDiff cts pfx prev' cur' l values fields modify =
        saveDiff cts pfx prev cur l values fields modify := by
  intro l
  induction l with
  | nil => intro values fields modify _; rfl
  | cons p l ih =>
    intro values fields modify h
    obtain ⟨i, f⟩ := p
    obtain ⟨h0, h1⟩ := h (i, f) (List.mem_cons_self _ _)
    have ht := fun q hq => h q (List.mem_cons_of_mem _ hq)
    simp only [saveDiff, h0, h1]
    split
    · exact ih _ _ _ ht
    · split <;> exact ih _ _ _ ht

/-- Indices listed by the non-excluded enumeration really carry
non-excluded fields. -/
theorem nonExcludedEnum_not_excluded (flds : List Field) :
    ∀ p ∈ nonExcludedEnum flds, (flds.getD p.1 default).isExcluded = false := by
  intro p hp
  have hsplit : p ∈ enumFields flds ∧ p.2.isExcluded = false := by
    simpa [nonExcludedEnum, List.mem_filter] using hp
  rw [getD_of_mem_enumFields hsplit.1 default]
  exact hsplit.2

/-- Identity-field indices always carry non-excluded fields: both branches
of `getSQLIDFields` filter excluded fields out. -/
theorem getSQLIDFields_not_excluded (flds : List Field) :
    ∀ j ∈ getSQLIDFields flds, (flds.getD j default).isExcluded = false := by
  intro j hj
  simp only [getSQLIDFields] at hj
  by_cases hr :
      ((nonExcludedEnum flds).filter (fun p => p.2.hasIdParam)).isEmpty = true
  · rw [if_pos hr] at hj
    cases hfind : (enumFields flds).find? (fun p => p.2.name == "ID") with
    | none => rw [hfind] at hj; simp at hj
    | some q =>
      obtain ⟨j0, f⟩ := q
      rw [hfind] at hj
      by_cases hfe : f.isExcluded = true
      · simp [hfe] at hj
      · simp only [hfe, Bool.false_eq_true, if_false] at hj
        have hfb : fieldByNameIdx flds "ID" = some j0 := by
          simp [fieldByNameIdx, hfind]
        rw [hfb] at hj
        simp only [List.mem_singleton] at hj
        subst hj
        have hmem := List.mem_of_find?_eq_some hfind
        rw [getD_of_mem_enumFields hmem default]
        simpa using hfe
  · rw [if_neg hr] at hj
    simp only [List.mem_map] at hj
    obtain ⟨p, hp, hpj⟩ := hj
    have hfilt := List.mem_filter.mp hp
    have := nonExcludedEnum_not_excluded flds p hfilt.1
    rwa [hpj] at this

/-! ### Claim theorems -/

/-- C7: if one or more result columns match no field of the target record
type, `ScanRows` fails with an error that enumerates every unmatched
column name accumulated over all columns, not only the first one
encountered. -/
theorem scanRows_unresolved_columns_all_reported
    (cts : String → String) (typeName : String) (flds : List Field)
    (names : List String) (rows : List RowInput)
    (hne : names.filter (fun n => (resolveColumn cts flds n).isNone) ≠ []) :
    scanRows cts typeName flds names rows =
      Except.error ("couldn't find fields on " ++ typeName ++
        " for these sql fields: " ++
        goFmtList (names.filter (fun n => (resolveColumn cts flds n).isNone))) := by
  unfold scanRows
  rw [resolveColumns_spec]
  simp [hne]

/-- C7 witness: two unmatched columns are both listed in the error. -/
theorem scanRows_unresolved_columns_all_reported_witness :
    scanRows snakeEx "Object" simpleFlds ["id", "nope", "zap"] [] =
      Except.error
        "couldn't find fields on Object for these sql fields: [nope zap]" := by
  have h := scanRows_unresolved_columns_all_reported snakeEx "Object"
    simpleFlds ["id", "nope", "zap"] [] (by decide!)
  exact h

/-- C10: on success `ScanRows` replaces the caller's output slice
wholesale: the result is exactly the decoded records, one per result row
in row-arrival order, and the slice's previous contents are discarded. -/
theorem scanRows_success_replaces_output
    (cts : String → String) (typeName : String) (flds : List Field)
    (names : List String) (goodRows : List (List Value))
    (prevOut : List (List Value))
    (hres : names.filter (fun n => (resolveColumn cts flds n).isNone) = []) :
    scanRows cts typeName flds names (goodRows.map RowInput.good) =
      Except.ok (goodRows.map
        (decodeRow flds (names.filterMap (resolveColumn cts flds)))) ∧
    scanRowsFinalOut cts typeName flds names (goodRows.map RowInput.good)
        prevOut =
      goodRows.map
        (decodeRow flds (names.filterMap (resolveColumn cts flds))) := by
  have h1 : scanRows cts typeName flds names (goodRows.map RowInput.good) =
      Except.ok (goodRows.map
        (decodeRow flds (names.filterMap (resolveColumn cts flds)))) := by
    unfold scanRows
    rw [resolveColumns_spec]
    simp [hres, scanLoop_all_good]
  exact ⟨h1, by unfold scanRowsFinalOut; rw [h1]⟩

/-- C10 witness: two rows decode in order; junk previously in the output
slice disappears. -/
theorem scanRows_success_replaces_output_witness :
    scanRows snakeEx "Object" simpleFlds ["id", "name"]
        [RowInput.good [Value.vInt 1, Value.vStr "a"],
         RowInput.good [Value.vInt 2, Value.vStr "b"]] =
      Except.ok [[Value.vInt 1, Value.vStr "a"],
        [Value.vInt 2, Value.vStr "b"]] ∧
    scanRowsFinalOut snakeEx "Object" simpleFlds ["id", "name"]
        [RowInput.good [Value.vInt 1, Value.vStr "a"],
         RowInput.good [Value.vInt 2, Value.vStr "b"]]
        [[Value.vStr "junk"]] =
      [[Value.vInt 1, Value.vStr "a"], [Value.vInt 2, Value.vStr "b"]] := by
  have h := scanRows_success_replaces_output snakeEx "Object" simpleFlds
    ["id", "name"]
    [[Value.vInt 1, Value.vStr "a"], [Value.vInt 2, Value.vStr "b"]]
    [[Value.vStr "junk"]] (by decide!)
  exact h

/-- C6 counterexample: one row decodes, then a scan failure occurs; the
caller's output sequence keeps its old contents, and the decoded first row
is absent from it — contrary to the claim that already-decoded rows remain
appended to the caller's output. -/
theorem scanRows_partial_retention_counterexample :
    scanRowsFinalOut snakeEx "Object" simpleFlds ["id", "name"]
        [RowInput.good [Value.vInt 1, Value.vStr "t"], RowInput.bad]
        [[Value.vStr "old"]] = [[Value.vStr "old"]] ∧
    decodeRow simpleFlds [0, 1] [Value.vInt 1, Value.vStr "t"] =
      [Value.vInt 1, Value.vStr "t"] ∧
    [Value.vInt 1, Value.vStr "t"] ∉
      scanRowsFinalOut snakeEx "Object" simpleFlds ["id", "name"]
        [RowInput.good [Value.vInt 1, Value.vStr "t"], RowInput.bad]
        [[Value.vStr "old"]] := by
  decide!

/-- C6 (amended): if `rows.Scan` fails while decoding one row, `ScanRows`
aborts immediately with an error and the caller's output slice is left
completely unchanged: the rows decoded before the failure are accumulated
only in a local slice that is discarded, never assigned to the caller. -/
theorem scanRows_failure_discards_partial_output
    (cts : String → String) (typeName : String) (flds : List Field)
    (names : List String) (goodRows : List (List Value))
    (rest : List RowInput) (prevOut : List (List Value))
    (hres : names.filter (fun n => (resolveColumn cts flds n).isNone) = []) :
    scanRows cts typeName flds names
        (goodRows.map RowInput.good ++ RowInput.bad :: rest) =
      Except.error "ScanRows: scan failed" ∧
    scanRowsFinalOut cts typeName flds names
        (goodRows.map RowInput.good ++ RowInput.bad :: rest) prevOut =
      prevOut := by
  have h1 : scanRows cts typeName flds names
      (goodRows.map RowInput.good ++ RowInput.bad :: rest) =
      Except.error "ScanRows: scan failed" := by
    unfold scanRows
    rw [resolveColumns_spec]
    simp [hres, scanLoop_abort]
  exact ⟨h1, by unfold scanRowsFinalOut; rw [h1]⟩

/-- C6 witness for the amended statement. -/
theorem scanRows_failure_discards_partial_output_witness :
    scanRows snakeEx "Object" simpleFlds ["id", "name"]
        [RowInput.good [Value.vInt 1, Value.vStr "a"], RowInput.bad] =
      Except.error "ScanRows: scan failed" ∧
    scanRowsFinalOut snakeEx "Object" simpleFlds ["id", "name"]
        [RowInput.good [Value.vInt 1, Value.vStr "a"], RowInput.bad]
        [[Value.vStr "keep"]] = [[Value.vStr "keep"]] := by
  have h := scanRows_failure_discards_partial_output snakeEx "Object"
    simpleFlds ["id", "name"] [[Value.vInt 1, Value.vStr "a"]] []
    [[Value.vStr "keep"]] (by decide!)
  exact h

/-- C4 counterexample: fields `A` and `B` both carry explicit tag value
`x`.  The claim's first-match algorithm resolves column `x` to the first
tagged field, but `ScanRows` requires a unique tag match, resolves
nothing, and reports the column as missing. -/
theorem resolveColumn_duplicate_tag_counterexample :
    resolveColumn snakeEx dupTagFlds "x" = none ∧
    claimResolveColumn snakeEx dupTagFlds "x" = some 0 ∧
    scanRows snakeEx "Dup" dupTagFlds ["x"] [] =
      Except.error "couldn't find fields on Dup for these sql fields: [x]" := by
  decide!

/-- C4 (amended): for a result column name matched by the explicit tag
value of at most one field, `ScanRows` resolves the target field by
trying, in order with the first match winning: exact match against a
field's explicit sql-tag column name, then the declared Go name, then the
snake-case default name.  (When several fields share the tag value, the
tag stage matches nothing and resolution falls through.) -/
theorem resolveColumn_matches_claim_of_unique_tag
    (cts : String → String) (flds : List Field) (name : String)
    (h : ((enumFields flds).filter
        (fun p => match p.2.sqlTag with
                  | some t => t.value == name
                  | none => false)).length ≤ 1) :
    resolveColumn cts flds name = claimResolveColumn cts flds name := by
  unfold resolveColumn claimResolveColumn
  rw [find?_eq_head?_filter
    (fun p => match p.2.sqlTag with
              | some t => t.value == name
              | none => false) (enumFields flds)]
  generalize hl : (enumFields flds).filter
      (fun p => match p.2.sqlTag with
                | some t => t.value == name
                | none => false) = l at h ⊢
  match l with
  | [] => rfl
  | [(j, f)] => rfl
  | q :: q2 :: t2 => simp at h

/-- C4 witness for the amended statement: with unique tags, code and claim
algorithm agree. -/
theorem resolveColumn_matches_claim_of_unique_tag_witness :
    resolveColumn snakeEx simpleFlds "name" =
      claimResolveColumn snakeEx simpleFlds "name" :=
  resolveColumn_matches_claim_of_unique_tag snakeEx simpleFlds "name"
    (by decide!)

/-- C3: a type with two identity-flagged fields.  `SaveRecord` renders the
ANDed identity WHERE clause with a spaced `and`, markers `$1`,`$2` leading
the argument list and the SET marker continuing at `$3`; `DeleteRecord`
joins with `"and "` without a leading space, fusing the first marker and
the keyword into `$1and` — the claim evaluated at the failing input. -/
theorem composite_identity_where_rendering :
    saveRecord snakeEx ""
        { typeName := "CompositeIDObject", flds := compFlds,
          vals := [Value.vInt 101, Value.vInt 201, Value.vStr "b"] }
        (some [Value.vInt 101, Value.vInt 201, Value.vStr "a"]) =
      ([Event.query
          "select * from composite_id_objects where id_1 = $1 and id_2 = $2 limit 1"
          [Value.vInt 101, Value.vInt 201],
        Event.exec
          "update composite_id_objects set name = $3 where id_1 = $1 and id_2 = $2"
          [Value.vInt 101, Value.vInt 201, Value.vStr "b"]],
       Except.ok [Value.vInt 101, Value.vInt 201, Value.vStr "b"]) ∧
    deleteRecord snakeEx ""
        { typeName := "CompositeIDObject", flds := compFlds,
          vals := [Value.vInt 101, Value.vInt 201, Value.vStr "b"] } =
      ([Event.exec
          "delete from composite_id_objects where id_1 = $1and id_2 = $2"
          [Value.vInt 101, Value.vInt 201]],
       Except.ok [Value.vInt 101, Value.vInt 201, Value.vStr "b"]) := by
  decide!

/-- C9: for each mutating operation, a present before-hook runs before any
input validation: a failing hook's error is returned even when the input
is not a pointer to a struct or its type has no identity fields, and a
succeeding hook has already run (it heads the trace) when the validation
error is reported. -/
theorem hooks_run_before_validation
    (cts : String → String) (pfx : String) (inp : OpInput)
    (fetched : Option (List Value)) (insertOk : Bool) (genId : Value)
    (hhook : inp.hasBeforeHook = true) :
    (∀ e, inp.beforeHookErr = some e →
      createRecord cts pfx inp insertOk genId =
        ([Event.hookBefore "BeforeCreate"],
         Except.error
           ("CreateRecord: BeforeCreate callback returned an error: " ++ e)) ∧
      saveRecord cts pfx inp fetched =
        ([Event.hookBefore "BeforeSave"],
         Except.error
           ("SaveRecord: BeforeSave callback returned an error: " ++ e)) ∧
      replaceRecord cts pfx inp =
        ([Event.hookBefore "BeforeReplace"],
         Except.error
           ("ReplaceRecord: BeforeReplace callback returned an error: " ++ e)) ∧
      deleteRecord cts pfx inp =
        ([Event.hookBefore "BeforeDelete"],
         Except.error
           ("DeleteRecord: BeforeDelete callback returned an error: " ++ e))) ∧
    (inp.beforeHookErr = none → inp.isPtr = false →
      createRecord cts pfx inp insertOk genId =
        ([Event.hookBefore "BeforeCreate"],
         Except.error "CreateRecord: expected input to be a pointer") ∧
      saveRecord cts pfx inp fetched =
        ([Event.hookBefore "BeforeSave"],
         Except.error "SaveRecord: expected input to be a pointer") ∧
      replaceRecord cts pfx inp =
        ([Event.hookBefore "BeforeReplace"],
         Except.error "ReplaceRecord: expected input to be a pointer") ∧
      deleteRecord cts pfx inp =
        ([Event.hookBefore "BeforeDelete"],
         Except.error "DeleteRecord: expected input to be a pointer")) := by
  constructor
  · intro e he
    refine ⟨?_, ?_, ?_, ?_⟩ <;>
      simp [createRecord, saveRecord, replaceRecord, deleteRecord,
        withBeforeHook, hhook, he]
  · intro he hp
    refine ⟨?_, ?_, ?_, ?_⟩ <;>
      simp [createRecord, saveRecord, replaceRecord, deleteRecord,
        createRecordMain, saveRecordMain, replaceRecordMain,
        deleteRecordMain, withBeforeHook, hhook, he, hp]

/-- C9 witness: a failing hook's error surfaces even for a non-pointer
input of a type with no identity fields; a succeeding hook is on the trace
when the pointer validation error is reported. -/
theorem hooks_run_before_validation_witness :
    createRecord snakeEx ""
        { hasBeforeHook := true, beforeHookErr := some "boom",
          isPtr := false, flds := [] } true Value.nil =
      ([Event.hookBefore "BeforeCreate"],
       Except.error
         "CreateRecord: BeforeCreate callback returned an error: boom") ∧
    deleteRecord snakeEx ""
        { hasBeforeHook := true, isPtr := false } =
      ([Event.hookBefore "BeforeDelete"],
       Except.error "DeleteRecord: expected input to be a pointer") := by
  constructor
  · exact ((hooks_run_before_validation snakeEx ""
      { hasBeforeHook := true, beforeHookErr := some "boom",
        isPtr := false, flds := [] } none true Value.nil rfl).1
      "boom" rfl).1
  · exact (((hooks_run_before_validation snakeEx ""
      { hasBeforeHook := true, isPtr := false } none true Value.nil
      rfl).2 rfl rfl).2.2.2)

/-- C1: when the stored snapshot fetched via the identity WHERE clause
differs from the in-memory record in exactly one non-excluded,
non-readonly field, `SaveRecord` issues the snapshot fetch and then
exactly one UPDATE statement whose SET list contains only that field's
column, with the new in-memory value appended to the argument list after
the identity values; every other column is absent from the SET list. -/
theorem saveRecord_single_field_update
    (cts : String → String) (pfx : String) (inp : OpInput)
    (prev : List Value) (l1 l2 : List (Nat × Field)) (k : Nat) (fk : Field)
    (hhook : inp.beforeHookErr = none)
    (hptr : inp.isPtr = true) (hstruct : inp.isStruct = true)
    (hids : (getSQLIDFields inp.flds).isEmpty = false)
    (hsplit : nonExcludedEnum inp.flds = l1 ++ (k, fk) :: l2)
    (h1 : ∀ p ∈ l1, p.2.isReadonlySkip = true ∨
      prev.getD p.1 Value.nil = inp.vals.getD p.1 Value.nil)
    (h2 : ∀ p ∈ l2, p.2.isReadonlySkip = true ∨
      prev.getD p.1 Value.nil = inp.vals.getD p.1 Value.nil)
    (hkro : fk.isReadonlySkip = false)
    (hkne : prev.getD k Value.nil ≠ inp.vals.getD k Value.nil) :
    stmtEvents (saveRecord cts pfx inp (some prev)).1 =
      [Event.query
        ("select * from " ++ getSQLTableName cts inp.typeName inp.flds ++
          " " ++
          (saveWhere cts pfx inp.flds inp.vals (getSQLIDFields inp.flds)
            "" []).1 ++ " limit 1")
        (saveWhere cts pfx inp.flds inp.vals (getSQLIDFields inp.flds)
          "" []).2,
       Event.exec
        ("update " ++ getSQLTableName cts inp.typeName inp.flds ++ " " ++
          ("set " ++ getSQLColumnName cts fk ++ " = " ++
            makeParameter pfx
              ((saveWhere cts pfx inp.flds inp.vals
                (getSQLIDFields inp.flds) "" []).2.length + 1)) ++ " " ++
          (saveWhere cts pfx inp.flds inp.vals (getSQLIDFields inp.flds)
            "" []).1)
        ((saveWhere cts pfx inp.flds inp.vals (getSQLIDFields inp.flds)
          "" []).2 ++ [inp.vals.getD k Value.nil])] := by
  obtain ⟨-, hstmt, -⟩ := withBeforeHook_noErr "BeforeSave"
    "SaveRecord: BeforeSave callback returned an error: " inp
    (saveRecordMain cts pfx inp (some prev)) hhook
  rw [saveRecord, hstmt]
  simp only [saveRecordMain, hptr, hstruct, hids, Bool.not_true,
    Bool.false_eq_true, if_false, hsplit]
  rw [saveDiff_single cts pfx prev inp.vals l1 l2 k fk _ h1 h2 hkro hkne]
  simp only [Bool.not_true, Bool.false_eq_true, if_false]
  rw [(afterHookWrap_stmts "AfterSave"
    "SaveRecord: AfterSave callback returned an error: " inp _ inp.vals).1]
  simp [stmtEvents, Event.isStmt]

/-- C1 witness: a record differing from its snapshot only in `Name`. -/
theorem saveRecord_single_field_update_witness :
    stmtEvents (saveRecord snakeEx ""
        { typeName := "SimpleObject", flds := simpleFlds,
          vals := [Value.vInt 1, Value.vStr "b"] }
        (some [Value.vInt 1, Value.vStr "a"])).1 =
      [Event.query "select * from simple_objects where id = $1 limit 1"
        [Value.vInt 1],
       Event.exec "update simple_objects set name = $2 where id = $1"
        [Value.vInt 1, Value.vStr "b"]] := by
  have h := saveRecord_single_field_update snakeEx ""
    { typeName := "SimpleObject", flds := simpleFlds,
      vals := [Value.vInt 1, Value.vStr "b"] }
    [Value.vInt 1, Value.vStr "a"] [(0, fID)] [] 1 fName
    rfl rfl rfl rfl (by decide!) (by decide!) (by decide!) (by decide!)
    (by decide!)
  rw [h]
  decide!

/-- C8: if every non-excluded, non-readonly field of the in-memory record
equals the corresponding field of the fetched snapshot, `SaveRecord`
returns success without executing any UPDATE statement. -/
theorem saveRecord_no_change_noop
    (cts : String → String) (pfx : String) (inp : OpInput)
    (prev : List Value)
    (hhook : inp.beforeHookErr = none)
    (hptr : inp.isPtr = true) (hstruct : inp.isStruct = true)
    (hids : (getSQLIDFields inp.flds).isEmpty = false)
    (hall : ∀ p ∈ nonExcludedEnum inp.flds, p.2.isReadonlySkip = true ∨
      prev.getD p.1 Value.nil = inp.vals.getD p.1 Value.nil) :
    (saveRecord cts pfx inp (some prev)).2 = Except.ok inp.vals ∧
    (saveRecord cts pfx inp (some prev)).1.filter Event.isExec = [] := by
  obtain ⟨hres, -, hexec⟩ := withBeforeHook_noErr "BeforeSave"
    "SaveRecord: BeforeSave callback returned an error: " inp
    (saveRecordMain cts pfx inp (some prev)) hhook
  have hdiff : saveDiff cts pfx prev inp.vals (nonExcludedEnum inp.flds)
      (saveWhere cts pfx inp.flds inp.vals (getSQLIDFields inp.flds)
        "" []).2 "" false =
      ((saveWhere cts pfx inp.flds inp.vals (getSQLIDFields inp.flds)
        "" []).2, "", false) := by
    have := saveDiff_skip_run cts pfx prev inp.vals
      (nonExcludedEnum inp.flds) []
      (saveWhere cts pfx inp.flds inp.vals (getSQLIDFields inp.flds)
        "" []).2 "" false hall
    simpa [saveDiff] using this
  constructor
  · rw [saveRecord, hres]
    simp only [saveRecordMain, hptr, hstruct, hids, Bool.not_true,
      Bool.false_eq_true, if_false, hdiff]
    simp
  · rw [saveRecord, hexec]
    simp only [saveRecordMain, hptr, hstruct, hids, Bool.not_true,
      Bool.false_eq_true, if_false, hdiff]
    simp [Event.isExec]

/-- C8 witness: an unmodified record produces no UPDATE and succeeds. -/
theorem saveRecord_no_change_noop_witness :
    (saveRecord snakeEx ""
        { typeName := "SimpleObject", flds := simpleFlds,
          vals := [Value.vInt 1, Value.vStr "a"] }
        (some [Value.vInt 1, Value.vStr "a"])).2 =
      Except.ok [Value.vInt 1, Value.vStr "a"] ∧
    (saveRecord snakeEx ""
        { typeName := "SimpleObject", flds := simpleFlds,
          vals := [Value.vInt 1, Value.vStr "a"] }
        (some [Value.vInt 1, Value.vStr "a"])).1.filter Event.isExec =
      [] :=
  saveRecord_no_change_noop snakeEx ""
    { typeName := "SimpleObject", flds := simpleFlds,
      vals := [Value.vInt 1, Value.vStr "a"] }
    [Value.vInt 1, Value.vStr "a"] rfl rfl rfl rfl (by decide!)

/-- C2: for a type whose identity set is exactly the single default field
named `ID`: when that field holds its zero value, `CreateRecord` omits the
ID column from the INSERT column list and, after the successful INSERT,
performs exactly one follow-up single-row query whose result is assigned
back into the record's ID field; when the ID value is non-zero, the column
is included in the INSERT and no follow-up fetch is performed. -/
theorem createRecord_default_identity
    (cts : String → String) (pfx : String) (inp : OpInput) (genId : Value)
    (i : Nat) (fi : Field) (l1 l2 : List (Nat × Field))
    (hhook : inp.beforeHookErr = none)
    (hafter : inp.afterHookErr = none)
    (hptr : inp.isPtr = true) (hstruct : inp.isStruct = true)
    (hids : getSQLIDFields inp.flds = [i])
    (hsplit : nonExcludedEnum inp.flds = l1 ++ (i, fi) :: l2)
    (hni : ∀ p ∈ l1 ++ l2, p.2.name ≠ "ID")
    (hname : fi.name = "ID")
    (hfb : fieldByNameIdx inp.flds "ID" = some i) :
    (isZero (inp.vals.getD i Value.nil) = true →
      stmtEvents (createRecord cts pfx inp true genId).1 =
        [Event.exec
          ("insert into " ++ getSQLTableName cts inp.typeName inp.flds ++
            " (" ++ String.intercalate ", "
              ((l1 ++ l2).map (fun p => getSQLColumnName cts p.2)) ++
            ") values (" ++ String.intercalate ", "
              ((List.range (l1 ++ l2).length).map
                (fun t => makeParameter pfx (1 + t))) ++ ")")
          ((l1 ++ l2).map (fun p => inp.vals.getD p.1 Value.nil)),
         Event.query "select last_insert_rowid()" []] ∧
      (createRecord cts pfx inp true genId).2 =
        Except.ok (inp.vals.set i genId)) ∧
    (isZero (inp.vals.getD i Value.nil) = false →
      stmtEvents (createRecord cts pfx inp true genId).1 =
        [Event.exec
          ("insert into " ++ getSQLTableName cts inp.typeName inp.flds ++
            " (" ++ String.intercalate ", "
              ((l1 ++ (i, fi) :: l2).map
                (fun p => getSQLColumnName cts p.2)) ++
            ") values (" ++ String.intercalate ", "
              ((List.range (l1 ++ (i, fi) :: l2).length).map
                (fun t => makeParameter pfx (1 + t))) ++ ")")
          ((l1 ++ (i, fi) :: l2).map
            (fun p => inp.vals.getD p.1 Value.nil))] ∧
      (createRecord cts pfx inp true genId).2 = Except.ok inp.vals) := by
  obtain ⟨hres, hstmt, -⟩ := withBeforeHook_noErr "BeforeCreate"
    "CreateRecord: BeforeCreate callback returned an error: " inp
    (createRecordMain cts pfx inp true genId) hhook
  have hmem : (i, fi) ∈ nonExcludedEnum inp.flds := by
    rw [hsplit]
    exact List.mem_append.mpr (Or.inr (List.mem_cons_self _ _))
  have hget : inp.flds.getD i default = fi := by
    have hm2 : (i, fi) ∈ enumFields inp.flds ∧
        (i, fi).2.isExcluded = false := by
      simpa [nonExcludedEnum, List.mem_filter] using hmem
    exact getD_of_mem_enumFields hm2.1 default
  have hb : ((inp.flds.getD i default).name == "ID") = true := by
    rw [hget, hname]; simp
  have hielts : ∀ p ∈ l1 ++ l2,
      ((true : Bool) && p.2.name == "ID" &&
        isZero (inp.vals.getD p.1 Value.nil)) = false := by
    intro p hp
    have hne := hni p hp
    simp [hne]
  constructor
  · intro hz
    have hskip : ((true : Bool) && fi.name == "ID" &&
        isZero (inp.vals.getD i Value.nil)) = true := by
      simp only [hname, beq_self_eq_true, Bool.true_and, Bool.and_true]
      exact hz
    have hloop := createLoop_skip_middle cts pfx inp.vals i fi hskip l1 l2
      [] [] [] false
      (fun p hp => hielts p (List.mem_append.mpr (Or.inl hp)))
      (fun p hp => hielts p (List.mem_append.mpr (Or.inr hp)))
    constructor
    · rw [createRecord, hstmt]
      simp only [createRecordMain, hptr, hstruct, hids, Bool.not_true,
        Bool.false_eq_true, if_false, List.isEmpty_cons, hsplit, hb,
        hloop, hfb, List.nil_append, List.length_nil, Nat.zero_add,
        Bool.and_self, if_true]
      rw [(afterHookWrap_stmts "AfterCreate"
        "CreateRecord: AfterCreate callback returned an error: " inp _
        (inp.vals.set i genId)).1]
      simp [stmtEvents, Event.isStmt]
    · rw [createRecord, hres]
      simp only [createRecordMain, hptr, hstruct, hids, Bool.not_true,
        Bool.false_eq_true, if_false, List.isEmpty_cons, hsplit, hb,
        hloop, hfb, List.nil_append, List.length_nil, Nat.zero_add,
        Bool.and_self, if_true]
      rw [afterHookWrap_ok "AfterCreate"
        "CreateRecord: AfterCreate callback returned an error: " inp _
        (inp.vals.set i genId) hafter]
  · intro hz
    have hall : ∀ p ∈ l1 ++ (i, fi) :: l2,
        ((true : Bool) && p.2.name == "ID" &&
          isZero (inp.vals.getD p.1 Value.nil)) = false := by
      intro p hp
      rcases List.mem_append.mp hp with hp1 | hp1
      · exact hielts p (List.mem_append.mpr (Or.inl hp1))
      · rcases List.mem_cons.mp hp1 with hp2 | hp2
        · subst hp2
          simp only [hname, beq_self_eq_true, Bool.true_and, Bool.and_true]
          exact hz
        · exact hielts p (List.mem_append.mpr (Or.inr hp2))
    have hloop := createLoop_no_skip cts pfx true inp.vals
      (l1 ++ (i, fi) :: l2) [] [] [] false hall
    constructor
    · rw [createRecord, hstmt]
      simp only [createRecordMain, hptr, hstruct, hids, Bool.not_true,
        Bool.false_eq_true, if_false, List.isEmpty_cons, hsplit, hb,
        hloop, List.nil_append, List.length_nil, Nat.zero_add,
        Bool.and_false, if_true]
      rw [(afterHookWrap_stmts "AfterCreate"
        "CreateRecord: AfterCreate callback returned an error: " inp _
        inp.vals).1]
      simp [stmtEvents, Event.isStmt]
    · rw [createRecord, hres]
      simp only [createRecordMain, hptr, hstruct, hids, Bool.not_true,
        Bool.false_eq_true, if_false, List.isEmpty_cons, hsplit, hb,
        hloop, List.nil_append, List.length_nil, Nat.zero_add,
        Bool.and_false, if_true]
      rw [afterHookWrap_ok "AfterCreate"
        "CreateRecord: AfterCreate callback returned an error: " inp _
        inp.vals hafter]

/-- C2 witness: `SimpleObject` with zero and with non-zero `ID`. -/
theorem createRecord_default_identity_witness :
    (stmtEvents (createRecord snakeEx ""
        { typeName := "SimpleObject", flds := simpleFlds,
          vals := [Value.vInt 0, Value.vStr "x"] } true (Value.vInt 7)).1 =
      [Event.exec "insert into simple_objects (name) values ($1)"
        [Value.vStr "x"],
       Event.query "select last_insert_rowid()" []] ∧
     (createRecord snakeEx ""
        { typeName := "SimpleObject", flds := simpleFlds,
          vals := [Value.vInt 0, Value.vStr "x"] } true (Value.vInt 7)).2 =
      Except.ok [Value.vInt 7, Value.vStr "x"]) ∧
    (stmtEvents (createRecord snakeEx ""
        { typeName := "SimpleObject", flds := simpleFlds,
          vals := [Value.vInt 1, Value.vStr "x"] } true (Value.vInt 7)).1 =
      [Event.exec "insert into simple_objects (id, name) values ($1, $2)"
        [Value.vInt 1, Value.vStr "x"]] ∧
     (createRecord snakeEx ""
        { typeName := "SimpleObject", flds := simpleFlds,
          vals := [Value.vInt 1, Value.vStr "x"] } true (Value.vInt 7)).2 =
      Except.ok [Value.vInt 1, Value.vStr "x"]) := by
  constructor
  · have h := (createRecord_default_identity snakeEx ""
      { typeName := "SimpleObject", flds := simpleFlds,
        vals := [Value.vInt 0, Value.vStr "x"] } (Value.vInt 7)
      0 fID [] [(1, fName)] rfl rfl rfl rfl (by decide!) (by decide!)
      (by decide!) rfl (by decide!)).1 (by decide!)
    refine ⟨?_, ?_⟩
    · rw [h.1]; decide!
    · rw [h.2]; decide!
  · have h := (createRecord_default_identity snakeEx ""
      { typeName := "SimpleObject", flds := simpleFlds,
        vals := [Value.vInt 1, Value.vStr "x"] } (Value.vInt 7)
      0 fID [] [(1, fName)] rfl rfl rfl rfl (by decide!) (by decide!)
      (by decide!) rfl (by decide!)).2 (by decide!)
    refine ⟨?_, ?_⟩
    · rw [h.1]; decide!
    · rw [h.2]

/-- C5 counterexample: the excluded field `Secret` (sql tag `-`) IS bound
by the row decoder when a result column carries its declared Go name: the
resolver returns the excluded field's index, and decoding writes the cell
value into that field. -/
theorem decoder_binds_excluded_field_counterexample :
    (exclFlds.getD 1 default).isExcluded = true ∧
    resolveColumn snakeEx exclFlds "Secret" = some 1 ∧
    decodeRow exclFlds [1] [Value.vStr "s3cret"] =
      [Value.vInt 0, Value.vStr "s3cret"] := by
  decide!

/-- C5 (amended): every excluded field is invisible to the statement
generators: changing an excluded field's value in the in-memory record
(and, for Save, in the fetched snapshot) leaves the event traces —
statements, their texts, and their argument lists — of `CreateRecord`,
`ReplaceRecord`, `SaveRecord` and `DeleteRecord` unchanged, so the field
is never read, written, or counted in diffs by them.  The row decoder,
however, can bind a result column to an excluded field when the column
name equals the field's declared name or snake-case default (see the
counterexample). -/
theorem excluded_field_invisible_to_statements
    (cts : String → String) (pfx : String) (inp : OpInput) (i : Nat)
    (w1 w2 : Value) (prev : List Value) (insertOk : Bool) (genId : Value)
    (hex : (inp.flds.getD i default).isExcluded = true) :
    (createRecord cts pfx { inp with vals := inp.vals.set i w1 }
        insertOk genId).1 =
      (createRecord cts pfx inp insertOk genId).1 ∧
    (replaceRecord cts pfx { inp with vals := inp.vals.set i w1 }).1 =
      (replaceRecord cts pfx inp).1 ∧
    (saveRecord cts pfx { inp with vals := inp.vals.set i w1 }
        (some (prev.set i w2))).1 =
      (saveRecord cts pfx inp (some prev)).1 ∧
    (deleteRecord cts pfx { inp with vals := inp.vals.set i w1 }).1 =
      (deleteRecord cts pfx inp).1 := by
  obtain ⟨hbh, hbe, hah, hae, ip, istr, tn, fl, vl⟩ := inp
  dsimp only at hex ⊢
  have hv : ∀ j, j ≠ i →
      (vl.set i w1).getD j Value.nil = vl.getD j Value.nil :=
    fun j hj => getD_set_of_ne (Ne.symm hj) vl w1 Value.nil
  have hpv : ∀ j, j ≠ i →
      (prev.set i w2).getD j Value.nil = prev.getD j Value.nil :=
    fun j hj => getD_set_of_ne (Ne.symm hj) prev w2 Value.nil
  have hne : ∀ p ∈ nonExcludedEnum fl, p.1 ≠ i := by
    intro p hp0 hEq
    have h0 := nonExcludedEnum_not_excluded fl p hp0
    rw [hEq] at h0
    rw [h0] at hex
    exact Bool.false_ne_true hex
  have hidne : ∀ j ∈ getSQLIDFields fl, j ≠ i := by
    intro j hj hEq
    have h0 := getSQLIDFields_not_excluded fl j hj
    rw [hEq] at h0
    rw [h0] at hex
    exact Bool.false_ne_true hex
  have hcl : ∀ b : Bool,
      createLoop cts pfx b (vl.set i w1) (nonExcludedEnum fl) [] [] []
        false =
      createLoop cts pfx b vl (nonExcludedEnum fl) [] [] [] false :=
    fun b => createLoop_congr cts pfx b vl (vl.set i w1)
      (nonExcludedEnum fl) [] [] [] false
      (fun p hp0 => hv p.1 (hne p hp0))
  have hrl : replaceLoop cts pfx (vl.set i w1) (nonExcludedEnum fl)
      [] [] [] =
      replaceLoop cts pfx vl (nonExcludedEnum fl) [] [] [] :=
    replaceLoop_congr cts pfx vl (vl.set i w1) (nonExcludedEnum fl)
      [] [] [] (fun p hp0 => hv p.1 (hne p hp0))
  have hsw : saveWhere cts pfx fl (vl.set i w1) (getSQLIDFields fl)
      "" [] =
      saveWhere cts pfx fl vl (getSQLIDFields fl) "" [] :=
    saveWhere_congr cts pfx fl vl (vl.set i w1) (getSQLIDFields fl) "" []
      (fun j hj => hv j (hidne j hj))
  have hdw : deleteWhere cts pfx fl (vl.set i w1) (getSQLIDFields fl)
      "" [] =
      deleteWhere cts pfx fl vl (getSQLIDFields fl) "" [] :=
    deleteWhere_congr cts pfx fl vl (vl.set i w1) (getSQLIDFields fl) "" []
      (fun j hj => hv j (hidne j hj))
  have hsd : ∀ values : List Value,
      saveDiff cts pfx (prev.set i w2) (vl.set i w1)
        (nonExcludedEnum fl) values "" false =
      saveDiff cts pfx prev vl (nonExcludedEnum fl) values "" false :=
    fun values => saveDiff_congr cts pfx prev (prev.set i w2) vl
      (vl.set i w1) (nonExcludedEnum fl) values "" false
      (fun p hp0 => ⟨hpv p.1 (hne p hp0), hv p.1 (hne p hp0)⟩)
  refine ⟨?_, ?_, ?_, ?_⟩
  · unfold createRecord
    apply withBeforeHook_fst _ _ _ _ _ _ rfl rfl
    unfold createRecordMain
    dsimp only
    cases ip
    · rfl
    cases istr
    · rfl
    simp only [Bool.not_true, Bool.false_eq_true, if_false]
    by_cases hid0 : (getSQLIDFields fl).isEmpty = true
    · simp only [hid0, if_true]
    · simp only [hid0, Bool.false_eq_true, if_false, hcl]
      cases insertOk
      · simp only [Bool.not_false, if_true]
      · simp only [Bool.not_true, Bool.false_eq_true, if_false]
        split
        · split
          · exact afterHookWrap_fst _ _ _ _ _ _ _ rfl
          · exact afterHookWrap_fst _ _ _ _ _ _ _ rfl
        · exact afterHookWrap_fst _ _ _ _ _ _ _ rfl
  · unfold replaceRecord
    apply withBeforeHook_fst _ _ _ _ _ _ rfl rfl
    unfold replaceRecordMain
    dsimp only
    cases ip
    · rfl
    cases istr
    · rfl
    simp only [Bool.not_true, Bool.false_eq_true, if_false]
    by_cases hid0 : (getSQLIDFields fl).isEmpty = true
    · simp only [hid0, if_true]
    · simp only [hid0, Bool.false_eq_true, if_false, hrl]
      exact afterHookWrap_fst _ _ _ _ _ _ _ rfl
  · unfold saveRecord
    apply withBeforeHook_fst _ _ _ _ _ _ rfl rfl
    unfold saveRecordMain
    dsimp only
    cases ip
    · rfl
    cases istr
    · rfl
    simp only [Bool.not_true, Bool.false_eq_true, if_false]
    by_cases hid0 : (getSQLIDFields fl).isEmpty = true
    · simp only [hid0, if_true]
    · simp only [hid0, Bool.false_eq_true, if_false, hsw, hsd]
      split
      · rfl
      · exact afterHookWrap_fst _ _ _ _ _ _ _ rfl
  · unfold deleteRecord
    apply withBeforeHook_fst _ _ _ _ _ _ rfl rfl
    unfold deleteRecordMain
    dsimp only
    cases ip
    · rfl
    cases istr
    · rfl
    simp only [Bool.not_true, Bool.false_eq_true, if_false]
    by_cases hid0 : (getSQLIDFields fl).isEmpty = true
    · simp only [hid0, if_true]
    · simp only [hid0, Bool.false_eq_true, if_false, hdw]
      exact afterHookWrap_fst _ _ _ _ _ _ _ rfl

/-- C5 witness for the amended statement: changing the excluded `Secret`
field's value changes none of the four operations' traces. -/
theorem excluded_field_invisible_to_statements_witness :
    (createRecord snakeEx ""
        { typeName := "Obj", flds := exclFlds,
          vals := [Value.vInt 3, Value.vStr "changed"] } true Value.nil).1 =
      (createRecord snakeEx ""
        { typeName := "Obj", flds := exclFlds,
          vals := [Value.vInt 3, Value.vStr "orig"] } true Value.nil).1 ∧
    (replaceRecord snakeEx ""
        { typeName := "Obj", flds := exclFlds,
          vals := [Value.vInt 3, Value.vStr "changed"] }).1 =
      (replaceRecord snakeEx ""
        { typeName := "Obj", flds := exclFlds,
          vals := [Value.vInt 3, Value.vStr "orig"] }).1 ∧
    (saveRecord snakeEx ""
        { typeName := "Obj", flds := exclFlds,
          vals := [Value.vInt 3, Value.vStr "changed"] }
        (some [Value.vInt 3, Value.vStr "prevchanged"])).1 =
      (saveRecord snakeEx ""
        { typeName := "Obj", flds := exclFlds,
          vals := [Value.vInt 3, Value.vStr "orig"] }
        (some [Value.vInt 3, Value.vStr "prevorig"])).1 ∧
    (deleteRecord snakeEx ""
        { typeName := "Obj", flds := exclFlds,
          vals := [Value.vInt 3, Value.vStr "changed"] }).1 =
      (deleteRecord snakeEx ""
        { typeName := "Obj", flds := exclFlds,
          vals := [Value.vInt 3, Value.vStr "orig"] }).1 := by
  have h := excluded_field_invisible_to_statements snakeEx ""
    { typeName := "Obj", flds := exclFlds,
      vals := [Value.vInt 3, Value.vStr "orig"] } 1
    (Value.vStr "changed") (Value.vStr "prevchanged")
    [Value.vInt 3, Value.vStr "prevorig"] true Value.nil (by decide!)
  exact h

end Sorm
